import Mathlib

/-!
# Wav-Csv: verification of the signal decoding / normalization / batch pipeline

Shallow embedding of the Har-Lab/Wav-Csv repository:

* `src/tools/wav2csv.py` — `read_wav_file`, `normalize_audio`, `mix_to_mono`,
  `write_csv_minimal`;
* `src/tools/batch_wav2csv.py` — `convert_wav_to_csv`, `process_subject`,
  `print_summary`, `main`;
* `src/caloricExpenditure.py` — `convert_to_triaxial_counts`,
  `calculate_triaxial_expenditure`.

Python/numpy floats are embedded as exact rationals `ℚ`; numpy integer
arrays as rational-valued lists constrained to the representable
range; `np.sqrt` as `Real.sqrt` on `ℝ`.
-/

namespace WavCsv

/-! ## Numpy dtypes

The dtypes that occur in the pipeline: `read_wav_file` produces `int16`
(8-bit data is widened to `int16` during rebiasing) or `int32` arrays;
`normalize_audio` produces `float32`; `uint8` and `float64` are the other
dtypes touched while decoding / before normalizing. -/

inductive NPDtype where
  | uint8 | int16 | int32 | float32 | float64
deriving DecidableEq, Repr

/-- Embeds `np.issubdtype(dtype, np.floating)`. -/
def NPDtype.isFloating : NPDtype → Bool
  | .float32 | .float64 => true
  | _ => false

/-- Embeds `np.issubdtype(dtype, np.integer)`. -/
def NPDtype.isInteger : NPDtype → Bool
  | .uint8 | .int16 | .int32 => true
  | _ => false

/-- Embeds `np.iinfo(dtype).min` for the integer dtypes (0 for the float dtypes,
where `np.iinfo` is never consulted by the code). -/
def NPDtype.iinfoMin : NPDtype → ℤ
  | .uint8 => 0
  | .int16 => -32768
  | .int32 => -2147483648
  | _ => 0

/-- Embeds `np.iinfo(dtype).max` for the integer dtypes. -/
def NPDtype.iinfoMax : NPDtype → ℤ
  | .uint8 => 255
  | .int16 => 32767
  | .int32 => 2147483647
  | _ => 0

/-- A value is representable in an integer dtype iff it lies in
`[iinfo.min, iinfo.max]`; float dtypes are unconstrained (their values are
clamped by `normalize_audio` anyway). -/
def NPDtype.represents (d : NPDtype) (v : ℚ) : Prop :=
  if d.isInteger then (d.iinfoMin : ℚ) ≤ v ∧ v ≤ (d.iinfoMax : ℚ) else True

instance (d : NPDtype) (v : ℚ) : Decidable (d.represents v) := by
  unfold NPDtype.represents; infer_instance

/-! ## Arrays

`wav2csv.py` works on numpy arrays that are either 1-D (`mono`: a flat
sample sequence) or 2-D (`multi`: one row per frame, one column per
channel); elementwise numpy operations act on every stored value. -/

inductive NDArray where
  | mono (xs : List ℚ)
  | multi (rows : List (List ℚ))
deriving DecidableEq, Repr

/-- All scalar values stored in the array, in row-major order. -/
def NDArray.values : NDArray → List ℚ
  | .mono xs => xs
  | .multi rows => rows.flatten

/-- Embeds `x.shape[0]`: number of samples (frames). -/
def NDArray.nsamples : NDArray → ℕ
  | .mono xs => xs.length
  | .multi rows => rows.length

/-- Elementwise application of a scalar function (numpy broadcasting). -/
def NDArray.map (f : ℚ → ℚ) : NDArray → NDArray
  | .mono xs => .mono (xs.map f)
  | .multi rows => .multi (rows.map (fun r => r.map f))

/-! ## `normalize_audio` (src/tools/wav2csv.py, lines 73–84) -/

/-- Embeds `np.clip(x, lo, hi)` on a scalar. -/
def clip (x lo hi : ℚ) : ℚ := max lo (min x hi)

/-- Embeds `normalize_audio(arr)`: floating input is clamped to `[-1, 1]`;
integer input is divided by `denom = max(abs(info.min), info.max)`;
anything else is returned as floats unchanged (dead for our dtypes). -/
def normalize_audio (d : NPDtype) (arr : NDArray) : NDArray :=
  if d.isFloating then arr.map (fun v => clip v (-1) 1)
  else if d.isInteger then
    let denom : ℚ := ((max (d.iinfoMin.natAbs : ℤ) d.iinfoMax : ℤ) : ℚ)
    arr.map (fun v => v / denom)
  else arr

/-! ## `mix_to_mono` (src/tools/wav2csv.py, lines 87–91) -/

/-- Embeds `mix_to_mono(x)`: a 1-D array is returned unchanged; a 2-D array is
reduced with `x.mean(axis=1)`, the arithmetic mean across the channel
axis for each frame. -/
def mix_to_mono (x : NDArray) : NDArray :=
  match x with
  | .mono xs => .mono xs
  | .multi rows => .mono (rows.map (fun r => r.sum / (r.length : ℚ)))

/-! ## `read_wav_file` sample decoding (src/tools/wav2csv.py, lines 40–55)

`np.frombuffer` with a signed dtype reinterprets little-endian byte
groups as twos-complement integers; that reinterpretation is embedded
as `bytesToWords* ∘ toSigned`. A byte is a `ℕ` below 256. -/

/-- Twos-complement reinterpretation of an unsigned `w`-byte code. -/
def toSigned (w : ℕ) (v : ℕ) : ℤ :=
  if (v : ℤ) < 2 ^ (8 * w - 1) then (v : ℤ) else (v : ℤ) - 2 ^ (8 * w)

/-- Little-endian 2-byte groups of a byte stream, as unsigned codes. -/
def bytesToWords2 : List ℕ → List ℕ
  | b0 :: b1 :: rest => (b0 + 256 * b1) :: bytesToWords2 rest
  | _ => []

/-- Little-endian 4-byte groups of a byte stream, as unsigned codes. -/
def bytesToWords4 : List ℕ → List ℕ
  | b0 :: b1 :: b2 :: b3 :: rest =>
      (b0 + 256 * b1 + 65536 * b2 + 16777216 * b3) :: bytesToWords4 rest
  | _ => []

/-- The sample-width branch of `read_wav_file`: width 1 reads unsigned
bytes and rebiases them by subtracting 128 (after an `int16` widening);
widths 2 and 4 reinterpret the bytes as little-endian signed
twos-complement; any other width raises `ValueError` (`none`). -/
def decode_samples (sampleWidth : ℕ) (bytes : List ℕ) : Option (List ℤ) :=
  if sampleWidth = 1 then some (bytes.map (fun b => (b : ℤ) - 128))
  else if sampleWidth = 2 then some ((bytesToWords2 bytes).map (toSigned 2))
  else if sampleWidth = 4 then some ((bytesToWords4 bytes).map (toSigned 4))
  else none

/-! ## Batch orchestration (src/tools/batch_wav2csv.py)

The orchestrator shells out to `wav2csv.py` per file; the outcome of that
subprocess call is embedded as `RunResult` (return code 0, a nonzero
return code with captured stderr, `subprocess.TimeoutExpired`, or any
other raised exception). -/

inductive RunResult where
  | success
  | errorCode (stderr : String)
  | timeoutExpired
  | raised (msg : String)
deriving DecidableEq, Repr

/-- The per-file result dict built by `process_subject`: the tuple
`(wav_file, success, message)` returned by `convert_wav_to_csv`. -/
structure JobResult where
  wav_file : String
  success : Bool
  message : String
deriving DecidableEq, Repr

/-- Embeds `convert_wav_to_csv` (src/tools/batch_wav2csv.py, lines 59–91): skip
when resume is on and the output already exists; otherwise run the
subprocess and classify its outcome; every failure mode is caught and
returned as a recorded result. -/
def convert_wav_to_csv (wavFile : String) (resume outputExists : Bool)
    (run : RunResult) : JobResult :=
  if resume && outputExists then ⟨wavFile, true, "Skipped (already exists)"⟩
  else
    match run with
    | .success => ⟨wavFile, true, "Success"⟩
    | .errorCode e => ⟨wavFile, false, "Error: " ++ e⟩
    | .timeoutExpired => ⟨wavFile, false, "Timeout"⟩
    | .raised m => ⟨wavFile, false, "Exception: " ++ m⟩

/-- A discovered WAV file together with the state of the world relevant
to its job: whether its output artifact already exists, and what the
conversion subprocess would do if invoked. -/
structure WavJob where
  wav_file : String
  outputExists : Bool
  run : RunResult
deriving DecidableEq, Repr

/-- The per-subject `summary` dict. -/
structure Summary where
  total : ℕ
  success : ℕ
  failed : ℕ
deriving DecidableEq, Repr

/-- The per-subject report built by `process_subject` (results list plus
summary; the directory fields are dropped as inessential). -/
structure SubjectReport where
  results : List JobResult
  summary : Summary
deriving DecidableEq, Repr

/-- Embeds `process_subject` (src/tools/batch_wav2csv.py, lines 93–144): an
empty subject returns the zero summary; otherwise each file yields one
result — a hypothetical success under dry-run, the `convert_wav_to_csv`
outcome otherwise — and the summary counts `success=True` entries, with
`failed = total - success`. -/
def process_subject (dryRun resume : Bool) (files : List WavJob) :
    SubjectReport :=
  match files with
  | [] => ⟨[], ⟨0, 0, 0⟩⟩
  | _ :: _ =>
    let results := files.map (fun f =>
      if dryRun then ⟨f.wav_file, true, "Would process"⟩
      else convert_wav_to_csv f.wav_file resume f.outputExists f.run)
    let total := results.length
    let succ := (results.filter (fun r => r.success)).length
    ⟨results, ⟨total, succ, total - succ⟩⟩

/-- Whether the output artifact of a job exists after the job is handled:
`wav2csv.py` writes the CSV when the subprocess succeeds; the dry-run
and skip paths never invoke it; failing runs, which raise before
`np.savetxt`, leave the artifact state unchanged. -/
def job_output_exists_after (dryRun resume : Bool) (f : WavJob) : Bool :=
  if dryRun then f.outputExists
  else if resume && f.outputExists then f.outputExists
  else
    match f.run with
    | .success => true
    | _ => f.outputExists

/-- Artifact state of the outputs of one subject after a batch pass. -/
def subject_outputs_after (dryRun resume : Bool) (files : List WavJob) :
    List Bool :=
  files.map (job_output_exists_after dryRun resume)

/-- The filesystem writes `main` performs, in order (src/tools/
batch_wav2csv.py, lines 218–251): the output-directory `makedirs`, each
per-subject `create_output_structure` `makedirs`, each executed
job artifact write, and the final `batch_conversion_results.json` dump. -/
inductive FsWrite where
  | mkdirOutput
  | mkdirSubject (i : ℕ)
  | jobArtifact (i j : ℕ)
  | reportFile
deriving DecidableEq, Repr

/-- Whether handling a job writes its output artifact. -/
def job_writes (resume : Bool) (f : WavJob) : Bool :=
  if resume && f.outputExists then false
  else
    match f.run with
    | .success => true
    | _ => false

/-- Writes performed while processing one subject: the subject directory
is created unconditionally (before the dry-run branch); job artifacts
are written only for executed, successful jobs. -/
def subject_writes (i : ℕ) (dryRun resume : Bool) (files : List WavJob) :
    List FsWrite :=
  FsWrite.mkdirSubject i ::
    (if dryRun then []
     else files.enum.filterMap (fun p =>
       if job_writes resume p.2 then some (FsWrite.jobArtifact i p.1)
       else none))

/-- Writes performed by a whole `main` run. When discovery finds no
subject directories, `main` calls `sys.exit(1)` (src/tools/
batch_wav2csv.py, lines 207 and 216) before `os.makedirs` and before the
report dump, so that run performs no writes at all. Otherwise: output
root `makedirs`, the per-subject writes, and the unconditional
results-JSON dump. -/
def main_writes (dryRun resume : Bool) (subjects : List (List WavJob)) :
    List FsWrite :=
  match subjects with
  | [] => []
  | _ :: _ =>
    FsWrite.mkdirOutput ::
      ((subjects.enum.map
          (fun p => subject_writes p.1 dryRun resume p.2)).flatten
        ++ [FsWrite.reportFile])

/-- The success-rate line of `print_summary` (src/tools/batch_wav2csv.py,
lines 147–161): a percentage when at least one file was processed,
otherwise the string literal branch prints, embedded as `none`. -/
def success_rate (allResults : List SubjectReport) : Option ℚ :=
  let totalFiles : ℕ := (allResults.map (fun r => r.summary.total)).sum
  let totalSuccess : ℕ := (allResults.map (fun r => r.summary.success)).sum
  if 0 < totalFiles then some ((totalSuccess : ℚ) / (totalFiles : ℚ) * 100)
  else none

/-! ## `write_csv_minimal` (src/tools/wav2csv.py, lines 94–148)

The CSV artifact is embedded as its header string plus its numeric rows
(`np.savetxt` formatting is out of scope); the `.meta.json` sidecar as
the `Meta` record (the two absolute-path fields are dropped). -/

structure CsvFile where
  header : String
  rows : List (List ℚ)
deriving DecidableEq, Repr

/-- The descriptor written to `<output>.meta.json`. -/
structure Meta where
  samplerate_hz : ℚ
  samples : ℕ
  channels : ℕ
  duration_s : ℚ
  normalized : Bool
  mixed_to_mono : Bool
deriving DecidableEq, Repr

/-- The CSV header: `Time_s,Ch1` for 1-D data, `Time_s,Ch1,...,ChN` for
2-D data with `N = x.shape[1]` channels. -/
def csv_header : NDArray → String
  | .mono _ => "Time_s,Ch1"
  | .multi rows =>
    "Time_s," ++ String.intercalate ","
      ((List.range ((rows.head?.map List.length).getD 0)).map
        (fun i => "Ch" ++ toString (i + 1)))

/-- Embeds `np.column_stack((time_array, x))`: one row per sample, the elapsed
time `sampleIndex / sr` first, then the channel value(s). -/
def csv_rows (x : NDArray) (sr : ℚ) : List (List ℚ) :=
  match x with
  | .mono xs => xs.enum.map (fun p => [(p.1 : ℚ) / sr, p.2])
  | .multi rows => rows.enum.map (fun p => ((p.1 : ℚ) / sr) :: p.2)

/-- Embeds `1 if x.ndim == 1 else x.shape[1]`. -/
def n_channels_of : NDArray → ℕ
  | .mono _ => 1
  | .multi rows => (rows.head?.map List.length).getD 0

/-- Embeds `write_csv_minimal(data, sr, ..., normalize, mix_mono)`: apply
`normalize_audio` then `mix_to_mono` as requested, emit one CSV row per
sample with time column `i / sr`, and the descriptor with
`samples = x.shape[0]` and `duration_s = n_samples / sr`. -/
def write_csv_minimal (data : NDArray) (d : NPDtype) (sr : ℚ)
    (normalize mix_mono : Bool) : CsvFile × Meta :=
  let x1 := if normalize then normalize_audio d data else data
  let x := if mix_mono then mix_to_mono x1 else x1
  (⟨csv_header x, csv_rows x sr⟩,
   ⟨sr, x.nsamples, n_channels_of x, (x.nsamples : ℚ) / sr,
    normalize, mix_mono⟩)

/-! ## Caloric expenditure (src/caloricExpenditure.py) -/

/-- The function `get_user_data` validates gender to be exactly one of these. -/
inductive Gender where
  | male | female
deriving DecidableEq, Repr

/-- The dict returned by `get_user_data`. -/
structure UserData where
  age : ℚ
  height : ℚ
  weight : ℚ
  gender : Gender
deriving DecidableEq, Repr

/-- The per-epoch, per-minute energy-expenditure regression of
`calculate_triaxial_expenditure` (Table 3 formulas, one per gender). -/
def ee_per_min (u : UserData) (count : ℚ) : ℚ :=
  match u.gender with
  | .male =>
      -106.59251 + 0.40825 * u.age + 0.35249 * u.weight - 0.22485 * count
  | .female =>
      -56.09672 + 0.38459 * u.age + 0.16541 * u.weight - 0.16912 * count

/-- Embeds `calculate_triaxial_expenditure` (src/caloricExpenditure.py, lines
109–153): floor each per-epoch per-minute estimate at 0, sum, and divide
by 4 because each epoch is 15 seconds. -/
def calculate_triaxial_expenditure (triaxial_counts : List ℚ)
    (u : UserData) : ℚ :=
  (triaxial_counts.map (fun count => max 0 (ee_per_min u count))).sum / 4

/-! ## `convert_to_triaxial_counts` (src/caloricExpenditure.py, lines 63–83)

The DataFrame is indexed by parsed timestamps; a row is embedded as its
timestamp, in seconds since midnight of the first day of the recording,
plus the three axis values. The resample-then-sum of the magnitude column
forms 15-second buckets anchored at that midnight (the pandas default
resample origin, start_day), from the bucket of the earliest sample to the
bucket of the latest one inclusive — so the trailing partial bucket is
emitted and empty intermediate buckets sum to 0 — and sums the per-sample
vector magnitudes `np.sqrt(x**2 + y**2 + z**2)` within each bucket. -/

structure TriaxialRow where
  t : ℚ
  x : ℚ
  y : ℚ
  z : ℚ
deriving DecidableEq, Repr

/-- Embeds `np.sqrt` of the squared axis sum for one row. -/
noncomputable def vector_magnitude (x y z : ℚ) : ℝ :=
  Real.sqrt ((x : ℝ) ^ 2 + (y : ℝ) ^ 2 + (z : ℝ) ^ 2)

/-- Which 15-second bucket a timestamp falls into, counted from midnight
of the first day (the pandas default resample origin, start_day). -/
def bucketIndex (t : ℚ) : ℤ := ⌊t / 15⌋

/-- Embeds the 15-second resample-then-sum over (timestamp, value) samples: one
sum per 15-second bucket, from the earliest occupied bucket to the
latest, inclusive. -/
noncomputable def resample_15s_sum (samples : List (ℚ × ℝ)) : List ℝ :=
  match samples with
  | [] => []
  | r :: _ =>
    let bmin :=
      (samples.map (fun p => bucketIndex p.1)).foldl min (bucketIndex r.1)
    let bmax :=
      (samples.map (fun p => bucketIndex p.1)).foldl max (bucketIndex r.1)
    (List.range (bmax - bmin + 1).toNat).map (fun (k : ℕ) =>
      ((samples.filter (fun p => bucketIndex p.1 = bmin + (k : ℤ))).map
        Prod.snd).sum)

/-- Embeds `convert_to_triaxial_counts(df, x_col, y_col, z_col)`. -/
noncomputable def convert_to_triaxial_counts (rows : List TriaxialRow) :
    List ℝ :=
  resample_15s_sum (rows.map (fun r => (r.t, vector_magnitude r.x r.y r.z)))

end WavCsv

namespace WavCsv

/-- C1 helper: the integer-path denominator is positive for every integer
dtype of the pipeline. -/
theorem denom_pos (d : NPDtype) (hd : d.isInteger = true) :
    (0 : ℤ) < max (d.iinfoMin.natAbs : ℤ) d.iinfoMax := by
  cases d <;> simp_all [NPDtype.isInteger, NPDtype.iinfoMin, NPDtype.iinfoMax]

/-- C1 helper: the representable range is bounded by the denominator in
absolute value. -/
theorem abs_le_denom (d : NPDtype) (hd : d.isInteger = true) (v : ℚ)
    (hv : d.represents v) :
    |v| ≤ ((max (d.iinfoMin.natAbs : ℤ) d.iinfoMax : ℤ) : ℚ) := by
  unfold NPDtype.represents at hv
  rw [hd] at hv
  simp only [if_true] at hv
  obtain ⟨h1, h2⟩ := hv
  rw [abs_le]
  constructor
  · refine le_trans ?_ h1
    rw [neg_le]
    cases d <;> simp_all [NPDtype.iinfoMin, NPDtype.iinfoMax]
  · refine le_trans h2 ?_
    cases d <;> simp_all [NPDtype.iinfoMin, NPDtype.iinfoMax] <;> norm_num

/-- C1 helper: scalar bound for the clamp path. -/
theorem clip_mem_Icc (x : ℚ) : -1 ≤ clip x (-1) 1 ∧ clip x (-1) 1 ≤ 1 := by
  unfold clip
  constructor
  · exact le_max_left _ _
  · rw [max_le_iff]
    exact ⟨by norm_num, min_le_right _ _⟩

theorem values_map (f : ℚ → ℚ) (a : NDArray) :
    (a.map f).values = a.values.map f := by
  cases a with
  | mono xs => rfl
  | multi rows =>
    simp [NDArray.map, NDArray.values, List.map_flatten]

/-- **C1.** For every sample array whose values are representable in its
dtype, `normalize_audio` returns values of magnitude at most 1: floating
values are clamped to `[-1, 1]`, and integer values are divided by
`denom = max(|iinfo.min|, iinfo.max)`, which bounds the whole
representable range. -/
theorem normalize_audio_bounded (d : NPDtype) (arr : NDArray)
    (h : ∀ v ∈ arr.values, d.represents v) :
    ∀ w ∈ (normalize_audio d arr).values, -1 ≤ w ∧ w ≤ 1 := by
  intro w hw
  unfold normalize_audio at hw
  by_cases hf : d.isFloating = true
  · rw [if_pos hf, values_map, List.mem_map] at hw
    obtain ⟨v, _, rfl⟩ := hw
    exact clip_mem_Icc v
  · rw [if_neg hf] at hw
    have hi : d.isInteger = true := by
      cases d <;> simp_all [NPDtype.isFloating, NPDtype.isInteger]
    rw [if_pos hi, values_map, List.mem_map] at hw
    obtain ⟨v, hv, rfl⟩ := hw
    have hb := abs_le_denom d hi v (h v hv)
    have hp : (0 : ℚ) < ((max (d.iinfoMin.natAbs : ℤ) d.iinfoMax : ℤ) : ℚ) := by
      exact_mod_cast denom_pos d hi
    have : |v / ((max (d.iinfoMin.natAbs : ℤ) d.iinfoMax : ℤ) : ℚ)| ≤ 1 := by
      rw [abs_div, abs_of_pos hp, div_le_one hp]
      exact hb
    rw [abs_le] at this
    exact this

/-- Concrete instance of C1: normalizing an int16 array holding the
extreme representable values keeps the most negative sample, mapped to
`-32768 / 32768`, inside `[-1, 1]`. -/
theorem normalize_audio_bounded_witness :
    -1 ≤ (-32768 : ℚ) / 32768 ∧ (-32768 : ℚ) / 32768 ≤ 1 := by
  have h := normalize_audio_bounded .int16 (.mono [-32768, 32767, 0])
    (by decide)
  refine h ((-32768 : ℚ) / 32768) ?_
  norm_num [normalize_audio, NPDtype.isFloating, NPDtype.isInteger,
    NPDtype.iinfoMin, NPDtype.iinfoMax, NDArray.map, NDArray.values]

/-- **C3.** 8-bit decoding rebiases unsigned bytes by subtracting 128, so
byte 128 decodes to 0 and every byte `b` to `b - 128`; 2- and 4-byte
decoding reads little-endian signed twos complement with no rebias: a
code below the sign threshold is kept verbatim, and in general the
decoded value is the unique representative of the code modulo `2^(8w)`
inside the signed range. -/
theorem decode_samples_rebias :
    decode_samples 1 [128] = some [0]
    ∧ (∀ bytes : List ℕ,
        decode_samples 1 bytes = some (bytes.map (fun b => (b : ℤ) - 128)))
    ∧ (∀ b0 b1 : ℕ,
        decode_samples 2 [b0, b1] = some [toSigned 2 (b0 + 256 * b1)])
    ∧ (∀ v : ℕ, v < 2 ^ 15 → toSigned 2 v = v)
    ∧ (∀ v : ℕ, v < 2 ^ 16 →
        toSigned 2 v % 2 ^ 16 = (v : ℤ) % 2 ^ 16
        ∧ -2 ^ 15 ≤ toSigned 2 v ∧ toSigned 2 v < 2 ^ 15)
    ∧ (∀ v : ℕ, v < 2 ^ 31 → toSigned 4 v = v)
    ∧ (∀ v : ℕ, v < 2 ^ 32 →
        toSigned 4 v % 2 ^ 32 = (v : ℤ) % 2 ^ 32
        ∧ -2 ^ 31 ≤ toSigned 4 v ∧ toSigned 4 v < 2 ^ 31) := by
  refine ⟨by decide, fun bytes => rfl, fun b0 b1 => rfl, ?_, ?_, ?_, ?_⟩
  · intro v hv
    unfold toSigned
    rw [if_pos]
    exact_mod_cast hv
  · intro v hv
    unfold toSigned
    split
    · norm_num at *
      omega
    · norm_num at *
      omega
  · intro v hv
    unfold toSigned
    rw [if_pos]
    exact_mod_cast hv
  · intro v hv
    unfold toSigned
    split
    · norm_num at *
      omega
    · norm_num at *
      omega

/-- Concrete instance of C3: the two-byte little-endian code `[0, 128]`
(word 32768) decodes to `-32768`, the twos-complement reading. -/
theorem decode_samples_rebias_witness :
    decode_samples 2 [0, 128] = some [toSigned 2 (0 + 256 * 128)]
    ∧ toSigned 2 32768 % 2 ^ 16 = (32768 : ℤ) % 2 ^ 16
    ∧ -2 ^ 15 ≤ toSigned 2 32768 ∧ toSigned 2 32768 < 2 ^ 15 := by
  obtain ⟨-, -, h3, -, h5, -, -⟩ := decode_samples_rebias
  exact ⟨h3 0 128, h5 32768 (by norm_num)⟩

/-- **C9.** `mix_to_mono` is the identity on single-channel (1-D) data,
and on an `n`-frame, `k`-channel array constant at value `v` it yields a
single channel constant at `v` (the per-frame arithmetic mean). -/
theorem mix_to_mono_mean (xs : List ℚ) (n k : ℕ) (v : ℚ) (hk : 0 < k) :
    mix_to_mono (.mono xs) = .mono xs
    ∧ mix_to_mono (.multi (List.replicate n (List.replicate k v)))
        = .mono (List.replicate n v) := by
  refine ⟨rfl, ?_⟩
  unfold mix_to_mono
  simp only [NDArray.mono.injEq, List.map_replicate]
  congr 1
  rw [List.sum_replicate, List.length_replicate, nsmul_eq_mul]
  field_simp

/-- Concrete instance of C9: a 3-frame stereo array constant at `1/2`
mixes to a 3-sample mono array constant at `1/2`. -/
theorem mix_to_mono_mean_witness :
    mix_to_mono (.mono [1, 2]) = .mono [1, 2]
    ∧ mix_to_mono (.multi (List.replicate 3 (List.replicate 2 (1/2 : ℚ))))
        = .mono (List.replicate 3 (1/2 : ℚ)) :=
  mix_to_mono_mean [1, 2] 3 2 (1/2) (by norm_num)

/-! ### Batch orchestration lemmas -/

/-- The function `convert_wav_to_csv` echoes its input path in every branch. -/
theorem convert_wav_to_csv_wav_file (w : String) (resume outputExists : Bool)
    (run : RunResult) :
    (convert_wav_to_csv w resume outputExists run).wav_file = w := by
  unfold convert_wav_to_csv
  split
  · rfl
  · cases run <;> rfl

/-- The results list of `process_subject`, in closed form. -/
theorem process_subject_results (dryRun resume : Bool) (files : List WavJob) :
    (process_subject dryRun resume files).results
      = files.map (fun f =>
          if dryRun then ⟨f.wav_file, true, "Would process"⟩
          else convert_wav_to_csv f.wav_file resume f.outputExists f.run) := by
  cases files <;> rfl

/-- The summary of `process_subject`, in closed form. -/
theorem process_subject_summary (dryRun resume : Bool) (files : List WavJob) :
    (process_subject dryRun resume files).summary
      = ⟨(process_subject dryRun resume files).results.length,
         ((process_subject dryRun resume files).results.filter
            (fun r => r.success)).length,
         (process_subject dryRun resume files).results.length
           - ((process_subject dryRun resume files).results.filter
                (fun r => r.success)).length⟩ := by
  cases files <;> rfl

/-- Every discovered file receives exactly one recorded outcome. -/
theorem process_subject_total (dryRun resume : Bool) (files : List WavJob) :
    (process_subject dryRun resume files).summary.total = files.length := by
  rw [process_subject_summary, process_subject_results]
  simp

/-- **C4.** Failures are contained at the job boundary: each
discovered file receives exactly one recorded outcome (the report lists
every file, in order), and injecting a subprocess failure on one file of
five yields a summary of five outcomes, four successes and one failure. -/
theorem job_failure_isolated (dryRun resume : Bool) (files : List WavJob)
    (w1 w2 w3 w4 w5 e : String) :
    (process_subject dryRun resume files).results.length = files.length
    ∧ (process_subject dryRun resume files).results.map (fun r => r.wav_file)
        = files.map (fun f => f.wav_file)
    ∧ (process_subject false false
        [⟨w1, false, .success⟩, ⟨w2, false, .success⟩,
         ⟨w3, false, .errorCode e⟩, ⟨w4, false, .success⟩,
         ⟨w5, false, .success⟩]).summary = ⟨5, 4, 1⟩ := by
  refine ⟨?_, ?_, ?_⟩
  · rw [process_subject_results]
    simp
  · rw [process_subject_results, List.map_map]
    refine List.map_congr_left (fun f _ => ?_)
    simp only [Function.comp_apply]
    split
    · rfl
    · exact convert_wav_to_csv_wav_file _ _ _ _
  · rw [process_subject_summary, process_subject_results]
    simp [convert_wav_to_csv, List.filter]

/-- **C5.** Resume semantics: with resume on and the output artifact
present, the job is skipped with the recorded skip message, for every
possible subprocess behavior (the subprocess is never consulted); after
a first pass in which every job succeeded or was already skipped, every
output artifact exists; and a second resume pass over existing outputs
records only skip outcomes and leaves the artifact set unchanged. -/
theorem resume_second_run_skips :
    (∀ (w : String) (run : RunResult),
        convert_wav_to_csv w true true run
          = ⟨w, true, "Skipped (already exists)"⟩)
    ∧ (∀ files : List WavJob,
        (∀ f ∈ files, f.outputExists = true ∨ f.run = .success) →
        ∀ b ∈ subject_outputs_after false true files, b = true)
    ∧ (∀ files : List WavJob, (∀ f ∈ files, f.outputExists = true) →
        (process_subject false true files).results
          = files.map (fun f => ⟨f.wav_file, true, "Skipped (already exists)"⟩)
        ∧ subject_outputs_after false true files
            = files.map (fun f => f.outputExists)) := by
  refine ⟨?_, ?_, ?_⟩
  · intro w run
    unfold convert_wav_to_csv
    simp
  · intro files h b hb
    unfold subject_outputs_after at hb
    rw [List.mem_map] at hb
    obtain ⟨f, hf, rfl⟩ := hb
    unfold job_output_exists_after
    rcases h f hf with he | hr
    · simp [he]
    · by_cases he : f.outputExists = true <;> simp [he, hr]
  · intro files h
    constructor
    · rw [process_subject_results]
      refine List.map_congr_left (fun f hf => ?_)
      simp only [if_neg (Bool.false_ne_true)]
      unfold convert_wav_to_csv
      rw [if_pos]
      rw [h f hf]
      rfl
    · unfold subject_outputs_after
      refine List.map_congr_left (fun f hf => ?_)
      unfold job_output_exists_after
      simp [h f hf]

/-- Concrete instance of C5: one file whose subprocess would time out is
nonetheless skipped on a resume pass because its output exists, and the
artifact set is unchanged. -/
theorem resume_second_run_skips_witness :
    convert_wav_to_csv "a.wav" true true .timeoutExpired
      = ⟨"a.wav", true, "Skipped (already exists)"⟩
    ∧ (process_subject false true [⟨"a.wav", true, .timeoutExpired⟩]).results
        = [⟨"a.wav", true, "Skipped (already exists)"⟩]
    ∧ subject_outputs_after false true [⟨"a.wav", true, .timeoutExpired⟩]
        = [true] := by
  obtain ⟨h1, -, h3⟩ := resume_second_run_skips
  obtain ⟨h3a, h3b⟩ := h3 [⟨"a.wav", true, .timeoutExpired⟩] (by decide)
  exact ⟨h1 "a.wav" .timeoutExpired, by simpa using h3a, by simpa using h3b⟩

/-- **C8, counterexample.** A dry run over a discovered subject does not
perform zero filesystem writes: with one subject holding one WAV file,
`main` creates the output directory, creates the subject directory, and
writes the batch-results JSON. -/
theorem dry_run_still_writes_report :
    main_writes true false [[⟨"a.wav", false, .success⟩]]
      = [FsWrite.mkdirOutput, FsWrite.mkdirSubject 0, FsWrite.reportFile]
    ∧ main_writes true false [[⟨"a.wav", false, .success⟩]] ≠ [] := by
  have hE : main_writes true false [[⟨"a.wav", false, .success⟩]]
      = [FsWrite.mkdirOutput, FsWrite.mkdirSubject 0, FsWrite.reportFile] :=
    rfl
  refine ⟨hE, ?_⟩
  rw [hE]
  exact List.cons_ne_nil _ _

/-- **C8, amended.** A dry run performs no per-job conversion writes —
its write trace contains directory creations and the batch report only,
and job artifact states are untouched — while every discovered job is
reported as a hypothetical success, so the reported job count equals the
count a real run (dry-run off, either resume setting) would discover. -/
theorem dry_run_frame (resume : Bool) (subjects : List (List WavJob)) :
    (∀ w ∈ main_writes true resume subjects, ∀ i j, w ≠ FsWrite.jobArtifact i j)
    ∧ (subjects.map
        (fun files => (process_subject true resume files).summary.total)).sum
        = (subjects.map (fun files => files.length)).sum
    ∧ (∀ d2 r2 : Bool,
        (subjects.map
          (fun files => (process_subject d2 r2 files).summary.total)).sum
          = (subjects.map (fun files => files.length)).sum)
    ∧ (∀ files ∈ subjects,
        (process_subject true resume files).results
          = files.map (fun f => ⟨f.wav_file, true, "Would process"⟩))
    ∧ (∀ files ∈ subjects,
        subject_outputs_after true resume files
          = files.map (fun f => f.outputExists)) := by
  refine ⟨?_, ?_, ?_, ?_, ?_⟩
  · intro w hw i j
    cases subjects with
    | nil => simp [main_writes] at hw
    | cons s ss => ?_
    unfold main_writes subject_writes at hw
    simp only [if_pos] at hw
    rcases List.mem_cons.1 hw with rfl | hw
    · simp
    rcases List.mem_append.1 hw with hw | hw
    · rw [List.mem_flatten] at hw
      obtain ⟨l, hl, hwl⟩ := hw
      rw [List.mem_map] at hl
      obtain ⟨p, -, rfl⟩ := hl
      rcases List.mem_cons.1 hwl with rfl | hwl
      · simp
      · simp at hwl
    · rw [List.mem_singleton] at hw
      subst hw
      simp
  · simp [process_subject_total]
  · intro d2 r2
    simp [process_subject_total]
  · intro files _
    rw [process_subject_results]
    simp
  · intro files _
    unfold subject_outputs_after job_output_exists_after
    simp

/-- Concrete instance of C8 (amended): a one-subject, one-file dry run
reports the job as a hypothetical success and leaves its (absent)
artifact absent. -/
theorem dry_run_frame_witness :
    (process_subject true false [⟨"a.wav", false, .success⟩]).results
      = [⟨"a.wav", true, "Would process"⟩]
    ∧ subject_outputs_after true false [⟨"a.wav", false, .success⟩]
        = [false] := by
  obtain ⟨-, -, -, h4, h5⟩ := dry_run_frame false [[⟨"a.wav", false, .success⟩]]
  constructor
  · simpa using h4 [⟨"a.wav", false, .success⟩] (by simp)
  · simpa using h5 [⟨"a.wav", false, .success⟩] (by simp)

/-- **C10.** Per-subject summary invariants: `total` equals the number
of recorded outcomes, `success + failed = total`; a resume-skipped job
is recorded with `success=True` (so it is counted in the success total,
there is no distinct skipped status), dry-run outcomes are likewise all
successes; a zero-file subject yields the `{0, 0, 0}` summary; and the
batch-wide success rate over zero files is reported as not applicable
(`none`) rather than computed by division. -/
theorem summary_invariants (dryRun resume : Bool) (files : List WavJob) :
    (process_subject dryRun resume files).summary.total
        = (process_subject dryRun resume files).results.length
    ∧ (process_subject dryRun resume files).summary.success
        + (process_subject dryRun resume files).summary.failed
        = (process_subject dryRun resume files).summary.total
    ∧ (∀ (w : String) (run : RunResult),
        (convert_wav_to_csv w true true run).success = true
        ∧ (convert_wav_to_csv w true true run).message
            = "Skipped (already exists)")
    ∧ (dryRun = true →
        ∀ r ∈ (process_subject dryRun resume files).results, r.success = true)
    ∧ process_subject dryRun resume [] = ⟨[], ⟨0, 0, 0⟩⟩
    ∧ (∀ allResults : List SubjectReport,
        (∀ rep ∈ allResults, rep.summary.total = 0) →
        success_rate allResults = none) := by
  refine ⟨?_, ?_, ?_, ?_, rfl, ?_⟩
  · rw [process_subject_summary]
  · rw [process_subject_summary]
    dsimp only
    have := List.length_filter_le (fun r => r.success)
      (process_subject dryRun resume files).results
    omega
  · intro w run
    unfold convert_wav_to_csv
    simp
  · intro hd r hr
    rw [process_subject_results] at hr
    rw [List.mem_map] at hr
    obtain ⟨f, -, rfl⟩ := hr
    simp [hd]
  · intro allResults h
    have hz : (allResults.map (fun r => r.summary.total)).sum = 0 := by
      refine List.sum_eq_zero ?_
      intro x hx
      rw [List.mem_map] at hx
      obtain ⟨rep, hrep, rfl⟩ := hx
      exact h rep hrep
    simp only [success_rate]
    rw [hz]
    simp

/-- Concrete instance of C10: a subject with one skipped and one failed
job has summary `{2, 1, 1}`, and an empty batch reports no success
rate. -/
theorem summary_invariants_witness :
    (process_subject false true
        [⟨"a.wav", true, .success⟩, ⟨"b.wav", false, .errorCode "boom"⟩]
      ).summary.success
      + (process_subject false true
        [⟨"a.wav", true, .success⟩, ⟨"b.wav", false, .errorCode "boom"⟩]
      ).summary.failed
      = (process_subject false true
        [⟨"a.wav", true, .success⟩, ⟨"b.wav", false, .errorCode "boom"⟩]
      ).summary.total
    ∧ success_rate [] = none := by
  obtain ⟨-, h2, -, -, -, h6⟩ := summary_invariants false true
    [⟨"a.wav", true, .success⟩, ⟨"b.wav", false, .errorCode "boom"⟩]
  exact ⟨h2, h6 [] (by simp)⟩

/-- **C6.** The activity expenditure is the sum over epochs of the
floored per-minute estimate divided by 4: appending an epoch adds
exactly `max 0 (estimate) / 4`, an epoch with a negative estimate
contributes exactly 0, appending an epoch never decreases the total,
and the total is never negative. -/
theorem expenditure_floor (counts : List ℚ) (u : UserData) (c : ℚ) :
    calculate_triaxial_expenditure (counts ++ [c]) u
        = calculate_triaxial_expenditure counts u + max 0 (ee_per_min u c) / 4
    ∧ (ee_per_min u c < 0 →
        calculate_triaxial_expenditure (counts ++ [c]) u
          = calculate_triaxial_expenditure counts u)
    ∧ calculate_triaxial_expenditure counts u
        ≤ calculate_triaxial_expenditure (counts ++ [c]) u
    ∧ 0 ≤ calculate_triaxial_expenditure counts u := by
  have hadd : calculate_triaxial_expenditure (counts ++ [c]) u
      = calculate_triaxial_expenditure counts u
        + max 0 (ee_per_min u c) / 4 := by
    unfold calculate_triaxial_expenditure
    rw [List.map_append, List.sum_append, List.map_singleton,
      List.sum_singleton]
    ring
  refine ⟨hadd, ?_, ?_, ?_⟩
  · intro hneg
    rw [hadd, max_eq_left hneg.le]
    simp
  · rw [hadd]
    have : (0 : ℚ) ≤ max 0 (ee_per_min u c) / 4 := by positivity
    linarith
  · unfold calculate_triaxial_expenditure
    have : (0 : ℚ) ≤ (counts.map (fun count => max 0 (ee_per_min u count))).sum := by
      refine List.sum_nonneg ?_
      intro x hx
      rw [List.mem_map] at hx
      obtain ⟨k, -, rfl⟩ := hx
      exact le_max_left 0 _
    positivity

/-- Concrete instance of C6: for a 30-year-old, 70 kg male, the epoch
count 10000 has a negative per-minute estimate and adds nothing to the
total. -/
theorem expenditure_floor_witness :
    ee_per_min ⟨30, 170, 70, .male⟩ 10000 < 0
    ∧ calculate_triaxial_expenditure ([5] ++ [10000]) ⟨30, 170, 70, .male⟩
        = calculate_triaxial_expenditure [5] ⟨30, 170, 70, .male⟩ := by
  have hneg : ee_per_min ⟨30, 170, 70, .male⟩ 10000 < 0 := by
    unfold ee_per_min
    norm_num
  exact ⟨hneg, (expenditure_floor [5] ⟨30, 170, 70, .male⟩ 10000).2.1 hneg⟩

/-- **C7.** The serialized CSV has one row per sample; row `i` starts
with the elapsed time `i / sr`; the descriptor field `duration_s` is exactly
`samples / sr`; and the end-to-end 2-channel, 16-bit, 8000-frame,
8000 Hz scenario under `normalize` and `mono` yields 8000 rows and a
descriptor with `samples = 8000`, `channels = 1`, `duration_s = 1`. -/
theorem write_csv_minimal_rows (data : NDArray) (d : NPDtype) (sr : ℚ)
    (normalize mix_mono : Bool) :
    (write_csv_minimal data d sr normalize mix_mono).1.rows.length
        = (write_csv_minimal data d sr normalize mix_mono).2.samples
    ∧ (∀ i (h : i < (write_csv_minimal data d sr normalize mix_mono).1.rows.length),
        ((write_csv_minimal data d sr normalize mix_mono).1.rows.get ⟨i, h⟩).head?
          = some ((i : ℚ) / sr))
    ∧ (write_csv_minimal data d sr normalize mix_mono).2.duration_s
        = ((write_csv_minimal data d sr normalize mix_mono).2.samples : ℚ) / sr
    ∧ (∀ frames : List (List ℚ), frames.length = 8000 →
        (∀ r ∈ frames, r.length = 2) →
        (write_csv_minimal (.multi frames) .int16 8000 true true).1.rows.length
            = 8000
        ∧ (write_csv_minimal (.multi frames) .int16 8000 true true).2.samples
            = 8000
        ∧ (write_csv_minimal (.multi frames) .int16 8000 true true).2.channels
            = 1
        ∧ (write_csv_minimal (.multi frames) .int16 8000 true true).2.duration_s
            = 1) := by
  refine ⟨?_, ?_, rfl, ?_⟩
  · show (csv_rows _ sr).length = NDArray.nsamples _
    generalize (if mix_mono then _ else _ : NDArray) = x
    cases x <;> simp [csv_rows, NDArray.nsamples]
  · intro i h
    show ((csv_rows _ sr).get ⟨i, _⟩).head? = some ((i : ℚ) / sr)
    revert h
    show ∀ h : i < (csv_rows _ sr).length, _
    generalize (if mix_mono then _ else _ : NDArray) = x
    intro h
    cases x with
    | mono xs =>
      simp only [csv_rows, List.get_eq_getElem, List.getElem_map,
        List.getElem_enum, List.head?_cons]
    | multi rows =>
      simp only [csv_rows, List.get_eq_getElem, List.getElem_map,
        List.getElem_enum, List.head?_cons]
  · intro frames hlen _
    simp [write_csv_minimal, normalize_audio, NPDtype.isFloating,
      NPDtype.isInteger, mix_to_mono, csv_rows, NDArray.nsamples,
      NDArray.map, n_channels_of, hlen]

/-- Concrete instance of C7: the all-zero 8000-frame stereo input. -/
theorem write_csv_minimal_rows_witness :
    (write_csv_minimal (.multi (List.replicate 8000 [0, 0])) .int16 8000
        true true).1.rows.length = 8000
    ∧ (write_csv_minimal (.multi (List.replicate 8000 [0, 0])) .int16 8000
        true true).2.samples = 8000
    ∧ (write_csv_minimal (.multi (List.replicate 8000 [0, 0])) .int16 8000
        true true).2.channels = 1
    ∧ (write_csv_minimal (.multi (List.replicate 8000 [0, 0])) .int16 8000
        true true).2.duration_s = 1 := by
  have h := (write_csv_minimal_rows (.multi (List.replicate 8000 [0, 0]))
    .int16 8000 true true).2.2.2 (List.replicate 8000 [0, 0])
    (List.length_replicate 8000 [0, 0])
    (fun r hr => by rw [List.eq_of_mem_replicate hr]; rfl)
  exact h

/-! ### Epoch aggregation lemmas -/

/-- The epoch series over a nonempty sample list has one entry per
bucket between the extreme occupied buckets, inclusive. -/
theorem resample_15s_sum_length (r : ℚ × ℝ) (rest : List (ℚ × ℝ)) :
    (resample_15s_sum (r :: rest)).length
      = ((((r :: rest).map (fun p => bucketIndex p.1)).foldl max
            (bucketIndex r.1))
         - (((r :: rest).map (fun p => bucketIndex p.1)).foldl min
            (bucketIndex r.1)) + 1).toNat := by
  unfold resample_15s_sum
  dsimp only
  rw [List.length_map, List.length_range]

theorem foldl_min_eq_self (a : ℤ) (l : List ℤ) (h : ∀ x ∈ l, a ≤ x) :
    l.foldl min a = a := by
  induction l generalizing a with
  | nil => rfl
  | cons x xs ih =>
    rw [List.foldl_cons, min_eq_left (h x (List.mem_cons_self x xs))]
    exact ih a (fun y hy => h y (List.mem_cons_of_mem x hy))

theorem foldl_max_le_self (a : ℤ) (l : List ℤ) (h : ∀ x ∈ l, x ≤ a) :
    l.foldl max a = a := by
  induction l generalizing a with
  | nil => rfl
  | cons x xs ih =>
    rw [List.foldl_cons, max_eq_left (h x (List.mem_cons_self x xs))]
    exact ih a (fun y hy => h y (List.mem_cons_of_mem x hy))

theorem foldl_max_eq_of_mem (a b : ℤ) (l : List ℤ) (hb : b ∈ l)
    (hab : a ≤ b) (h : ∀ x ∈ l, x ≤ b) : l.foldl max a = b := by
  induction l generalizing a with
  | nil => cases hb
  | cons x xs ih =>
    rw [List.foldl_cons]
    rcases List.mem_cons.1 hb with rfl | hb'
    · by_cases hbx : b ∈ xs
      · exact ih (max a b) hbx (max_le hab le_rfl)
          (fun y hy => h y (List.mem_cons_of_mem _ hy))
      · rw [max_eq_right hab]
        exact foldl_max_le_self b xs
          (fun y hy => h y (List.mem_cons_of_mem _ hy))
    · exact ih (max a x) hb'
        (max_le hab (h x (List.mem_cons_self x xs)))
        (fun y hy => h y (List.mem_cons_of_mem x hy))

theorem bucketIndex_mono {s t : ℚ} (h : s ≤ t) :
    bucketIndex s ≤ bucketIndex t := by
  unfold bucketIndex
  exact Int.floor_le_floor (by linarith)

theorem bucketIndex_shift (t : ℚ) (m : ℤ) :
    bucketIndex (15 * m + t) = m + ⌊t / 15⌋ := by
  unfold bucketIndex
  have h : (15 * (m : ℚ) + t) / 15 = (m : ℚ) + t / 15 := by ring
  rw [h, add_comm ((m : ℚ)) (t / 15), Int.floor_add_int, add_comm]

/-- **C2, counterexample.** Epoch buckets are not aligned to the first
sample: a zero-valued stream at timestamps 10 s, 20 s and
32.5 s — exactly 1.5 epochs (22.5 s) from first to last sample — spans
the midnight-anchored buckets [0,15), [15,30), [30,45) and yields 3
epochs, while the claim predicts `ceil(22.5 / 15) = 2`. -/
theorem triaxial_counts_misaligned_cex :
    (convert_to_triaxial_counts
      [⟨10, 0, 0, 0⟩, ⟨20, 0, 0, 0⟩, ⟨65/2, 0, 0, 0⟩]).length = 3
    ∧ (65 / 2 : ℚ) - 10 = 45 / 2
    ∧ ⌈((65 / 2 : ℚ) - 10) / 15⌉ = 2 := by
  refine ⟨?_, by norm_num, ?_⟩
  · rw [convert_to_triaxial_counts]
    simp only [List.map_cons, List.map_nil]
    rw [resample_15s_sum_length]
    simp only [List.map_cons, List.map_nil, List.foldl_cons, List.foldl_nil]
    norm_num [bucketIndex]
    decide
  · rw [Int.ceil_eq_iff]
    norm_num

/-- **C2, amended.** Epoch buckets are 15-second intervals anchored at
midnight of the first day (the pandas default resample origin), with the
trailing partial bucket emitted. When the first sample lies on a bucket
boundary (`t = 15 m`), the epoch count is
`floor((tLast - tFirst) / 15) + 1`; a 1.5-epoch-long aligned stream
(22.5 s first-to-last) therefore yields exactly 2 epochs; and every
epoch is the sum of the vector magnitudes of its samples, so an all-zero
stream produces all-zero epoch sums. -/
theorem triaxial_counts_aligned_length (r0 : TriaxialRow)
    (rest : List TriaxialRow) (tL : ℚ) (m : ℤ)
    (halign : r0.t = 15 * m)
    (hmem : tL ∈ (r0 :: rest).map (fun r => r.t))
    (hub : ∀ r ∈ r0 :: rest, r.t ≤ tL)
    (hlb : ∀ r ∈ r0 :: rest, r0.t ≤ r.t) :
    (convert_to_triaxial_counts (r0 :: rest)).length
      = (⌊(tL - r0.t) / 15⌋).toNat + 1
    ∧ (tL - r0.t = 45 / 2 →
        (convert_to_triaxial_counts (r0 :: rest)).length = 2)
    ∧ ((∀ r ∈ r0 :: rest, r.x = 0 ∧ r.y = 0 ∧ r.z = 0) →
        ∀ s ∈ convert_to_triaxial_counts (r0 :: rest), s = 0) := by
  have hmain : (convert_to_triaxial_counts (r0 :: rest)).length
      = (⌊(tL - r0.t) / 15⌋).toNat + 1 := by
    rw [convert_to_triaxial_counts, List.map_cons]
    rw [resample_15s_sum_length]
    have hcomp :
        (((r0.t, vector_magnitude r0.x r0.y r0.z) ::
            rest.map (fun r => (r.t, vector_magnitude r.x r.y r.z))).map
          (fun p => bucketIndex p.1))
        = (r0 :: rest).map (fun r => bucketIndex r.t) := by
      simp [List.map_map, Function.comp]
    rw [hcomp]
    have hmin :
        ((r0 :: rest).map (fun r => bucketIndex r.t)).foldl min
          (bucketIndex (r0.t, vector_magnitude r0.x r0.y r0.z).1)
        = bucketIndex r0.t := by
      refine foldl_min_eq_self _ _ ?_
      intro x hx
      rw [List.mem_map] at hx
      obtain ⟨r, hr, rfl⟩ := hx
      exact bucketIndex_mono (hlb r hr)
    have hmax :
        ((r0 :: rest).map (fun r => bucketIndex r.t)).foldl max
          (bucketIndex (r0.t, vector_magnitude r0.x r0.y r0.z).1)
        = bucketIndex tL := by
      refine foldl_max_eq_of_mem _ _ _ ?_ ?_ ?_
      · rw [List.mem_map] at hmem ⊢
        obtain ⟨r, hr, hrt⟩ := hmem
        exact ⟨r, hr, by rw [hrt]⟩
      · exact bucketIndex_mono (hub r0 (List.mem_cons_self r0 rest))
      · intro x hx
        rw [List.mem_map] at hx
        obtain ⟨r, hr, rfl⟩ := hx
        exact bucketIndex_mono (hub r hr)
    rw [hmin, hmax]
    have hL : bucketIndex tL = m + ⌊(tL - r0.t) / 15⌋ := by
      have h : tL = 15 * m + (tL - r0.t) := by rw [halign]; ring
      rw [h, bucketIndex_shift, halign]
      ring_nf
    have h0 : bucketIndex r0.t = m := by
      rw [halign]
      rw [show bucketIndex (15 * (m : ℚ)) = m + ⌊(0 : ℚ) / 15⌋ from by
        rw [← bucketIndex_shift]; norm_num]
      norm_num
    have hq : 0 ≤ ⌊(tL - r0.t) / 15⌋ := by
      refine Int.floor_nonneg.mpr ?_
      have h := hub r0 (List.mem_cons_self r0 rest)
      have h15 : (0 : ℚ) ≤ tL - r0.t := by linarith
      positivity
    rw [hL, h0]
    omega
  refine ⟨hmain, ?_, ?_⟩
  · intro hdur
    rw [hmain, hdur]
    norm_num
  · intro hzero s hs
    rw [convert_to_triaxial_counts, List.map_cons] at hs
    unfold resample_15s_sum at hs
    rw [List.mem_map] at hs
    obtain ⟨k, -, rfl⟩ := hs
    refine List.sum_eq_zero ?_
    intro y hy
    rw [List.mem_map] at hy
    obtain ⟨p, hp, rfl⟩ := hy
    have hp' := List.mem_of_mem_filter hp
    rcases List.mem_cons.1 hp' with rfl | hp2
    · obtain ⟨hx, hy', hz⟩ := hzero r0 (List.mem_cons_self r0 rest)
      simp [vector_magnitude, hx, hy', hz]
    · rw [List.mem_map] at hp2
      obtain ⟨r, hr, rfl⟩ := hp2
      obtain ⟨hx, hy', hz⟩ := hzero r (List.mem_cons_of_mem _ hr)
      simp [vector_magnitude, hx, hy', hz]

/-- Concrete instance of C2 (amended): an aligned zero-valued stream at
timestamps 0 s, 10 s and 22.5 s — exactly 1.5 epochs — yields exactly 2
epochs. -/
theorem triaxial_counts_aligned_length_witness :
    (convert_to_triaxial_counts
      [⟨0, 0, 0, 0⟩, ⟨10, 0, 0, 0⟩, ⟨45/2, 0, 0, 0⟩]).length = 2 := by
  have hub : ∀ r ∈ ([⟨0, 0, 0, 0⟩, ⟨10, 0, 0, 0⟩, ⟨45/2, 0, 0, 0⟩] :
      List TriaxialRow), r.t ≤ (45 / 2 : ℚ) := by
    intro r hr
    simp only [List.mem_cons, List.not_mem_nil, or_false] at hr
    rcases hr with rfl | rfl | rfl <;> norm_num
  have hlb : ∀ r ∈ ([⟨0, 0, 0, 0⟩, ⟨10, 0, 0, 0⟩, ⟨45/2, 0, 0, 0⟩] :
      List TriaxialRow), (0 : ℚ) ≤ r.t := by
    intro r hr
    simp only [List.mem_cons, List.not_mem_nil, or_false] at hr
    rcases hr with rfl | rfl | rfl <;> norm_num
  obtain ⟨-, h2, -⟩ := triaxial_counts_aligned_length
    ⟨0, 0, 0, 0⟩ [⟨10, 0, 0, 0⟩, ⟨45/2, 0, 0, 0⟩] (45/2) 0
    (by norm_num) (by simp) hub hlb
  exact h2 (by norm_num)

end WavCsv
